import Mathlib

/-!
Shallow embedding of the schedule store and execution engine of the
rejktbot repository (src/utils/schedule-manager.ts, the scheduler service,
and src/telegram/commands/schedule.ts), together with theorems settling the
schedule-lifecycle claims. JS-absent optional values are modelled as
Option none, JS string truthiness as nonemptiness, Date.now and the random
id suffix as explicit Nat parameters, and the live cron timer map as an
insertion-ordered association list from schedule id to the schedule the
timer was created from.
-/

namespace Rejkt

/-- Messaging platform of a destination or of a creator stamp. -/
inductive Platform where
  | discord
  | telegram
deriving DecidableEq, Repr

/-- String form used when a platform tag is embedded in a generated id. -/
def Platform.str : Platform → String
  | .discord => "discord"
  | .telegram => "telegram"

/-- Content kind fetched on a firing. -/
inductive FetchType where
  | artist
  | nft
deriving DecidableEq, Repr

/-- Creator stamp of a schedule (the createdBy field). -/
structure CreatedBy where
  platform : Platform
  userId : String
  username : Option String
deriving DecidableEq, Repr

/-- Discord destination block. -/
structure DiscordTarget where
  channelId : String
  guildId : Option String
deriving DecidableEq, Repr

/-- Telegram destination block. -/
structure TelegramTarget where
  chatId : String
deriving DecidableEq, Repr

/-- ScheduleConfig from src/types/index.ts. createdAt is the JS millisecond
timestamp; the optional blocks are independently present. -/
structure ScheduleConfig where
  id : String
  name : String
  cronExpression : String
  enabled : Bool
  fetchType : FetchType
  createdAt : Nat
  createdBy : Option CreatedBy
  discord : Option DiscordTarget
  telegram : Option TelegramTarget
deriving DecidableEq, Repr

/-- Splits a character list at every character satisfying the predicate,
keeping empty pieces, as the JS split and the Lean splitOn do. Structural
recursion so that concrete inputs evaluate inside the kernel. -/
def splitCharsBy (p : Char → Bool) : List Char → List (List Char)
  | [] => [[]]
  | c :: rest =>
    let r := splitCharsBy p rest
    if p c then [] :: r
    else
      match r with
      | t :: ts => (c :: t) :: ts
      | [] => [[c]]

/-- Split of a string on a one-character separator, keeping empty pieces. -/
def splitOnChar (sep : Char) (s : String) : List String :=
  (splitCharsBy (fun c => c == sep) s.toList).map (fun l => String.mk l)

/-- Whitespace token list of a string: split on whitespace, empty pieces
dropped. This is the token structure the anchored source regexes and the
whitespace field splitting see. -/
def wsTokens (s : String) : List String :=
  ((splitCharsBy Char.isWhitespace s.toList).filter (fun l => !l.isEmpty)).map
    (fun l => String.mk l)

/-- Nonempty all-digit string, as matched by a digits group of the source
regexes and by the numeric atoms of cron fields. -/
def isDigits (s : String) : Bool :=
  !s.toList.isEmpty && s.toList.all Char.isDigit

/-- Numeric value of a digit character list, most significant first. -/
def natOfChars : List Char → Nat → Nat
  | [], acc => acc
  | c :: rest, acc => natOfChars rest (acc * 10 + (c.toNat - 48))

/-- Numeric value of a digit string (parseInt with radix ten); zero on a
string that is not all digits (never reached by the callers). -/
def natOf (s : String) : Nat :=
  if isDigits s then natOfChars s.toList 0 else 0

/-- ASCII lowercasing of one character, as toLowerCase acts on the ASCII
inputs involved here. -/
def jsLowerChar (c : Char) : Char :=
  if c.isUpper then Char.ofNat (c.toNat + 32) else c

/-- ASCII lowercasing of a string. -/
def jsToLower (s : String) : String :=
  String.mk (s.toList.map jsLowerChar)

/-- Base item of a cron field: an asterisk, a number in the field range, or
a dash range with both ends in range. Part of the modelled external
node-cron pattern validation (numeric fragment). -/
def cronBaseValid (lo hi : Nat) (base : String) : Bool :=
  if base == "*" then true
  else
    match splitOnChar '-' base with
    | [a] => isDigits a && decide (lo ≤ natOf a) && decide (natOf a ≤ hi)
    | [a, b] =>
      isDigits a && decide (lo ≤ natOf a) && decide (natOf a ≤ hi) &&
        (isDigits b && decide (lo ≤ natOf b) && decide (natOf b ≤ hi))
    | _ => false

/-- Comma item of a cron field, with an optional step suffix. -/
def cronItemValid (lo hi : Nat) (item : String) : Bool :=
  match splitOnChar '/' item with
  | [base] => cronBaseValid lo hi base
  | [base, step] => cronBaseValid lo hi base && isDigits step
  | _ => false

/-- One whitespace-separated cron field: nonempty comma-separated items. -/
def cronFieldValid (lo hi : Nat) (field : String) : Bool :=
  field != "" && (splitOnChar ',' field).all (cronItemValid lo hi)

/-- Modelled external dependency: the pattern validation that the node-cron
library runs both inside validate and inside schedule (where a failure
throws), restricted to the numeric five- or six-field fragment without
month or weekday names. Only its value at the concrete expressions used in
witnesses and counterexamples matters to the claims. -/
def nodeCronPatternValid (expr : String) : Bool :=
  match wsTokens expr with
  | [m, h, dom, mon, dow] =>
    cronFieldValid 0 59 m && cronFieldValid 0 23 h && cronFieldValid 1 31 dom &&
      cronFieldValid 1 12 mon && cronFieldValid 0 7 dow
  | [s, m, h, dom, mon, dow] =>
    cronFieldValid 0 59 s && cronFieldValid 0 59 m && cronFieldValid 0 23 h &&
      cronFieldValid 1 31 dom && cronFieldValid 1 12 mon && cronFieldValid 0 7 dow
  | _ => false

/-- Modelled external dependency: node-cron validate(expression). It runs
the pattern validation inside its own try-catch and returns a Bool; for a
string argument it never throws, so the value is always ok and a
caller-side catch block never fires. The Except layer models a JS
exception escaping the call. -/
def nodeCronValidate (expr : String) : Except String Bool :=
  Except.ok (nodeCronPatternValid expr)

/-- JS truthiness of an optional string: defined and nonempty. -/
def strTruthy : Option String → Bool
  | none => false
  | some s => s != ""

/-- Normalization the source applies to optional guild ids: a falsy value
(absent or empty) becomes undefined, a truthy one is kept stringified. -/
def normGuild : Option String → Option String
  | none => none
  | some g => if g == "" then none else some g

namespace ScheduleManager

/-- getSchedule: the first record with the given id. -/
def getSchedule (id : String) (schedules : List ScheduleConfig) : Option ScheduleConfig :=
  schedules.find? (fun schedule => schedule.id == id)

/-- getDiscordChannelSchedules: filter on the string-normalized channel id,
where a falsy stored channel id (absent block or empty id) normalizes to
the empty string, and on the guild guard of the source: the supplied guild
is falsy, or the stored guild matches, or the stored guild is falsy. -/
def getDiscordChannelSchedules (channelId : String) (guildId : Option String)
    (schedules : List ScheduleConfig) : List ScheduleConfig :=
  let channelIdStr := channelId
  let guildIdStr := normGuild guildId
  schedules.filter (fun schedule =>
    let scheduleChannelId :=
      match schedule.discord with
      | some d => if d.channelId == "" then "" else d.channelId
      | none => ""
    let scheduleGuildId :=
      match schedule.discord with
      | some d => normGuild d.guildId
      | none => none
    (scheduleChannelId == channelIdStr) &&
      (guildIdStr.isNone || (scheduleGuildId == guildIdStr) || scheduleGuildId.isNone))

/-- getTelegramChatSchedules: exact match on the stored chat id. -/
def getTelegramChatSchedules (chatId : String) (schedules : List ScheduleConfig) :
    List ScheduleConfig :=
  schedules.filter (fun schedule =>
    match schedule.telegram with
    | some t => t.chatId == chatId
    | none => false)

/-- addSchedule of the store: assigns the stringified Date.now value as id
when the given id is falsy (empty), assigns Date.now as createdAt when
falsy (zero), then appends the record and persists. No uniqueness check is
performed against the existing records. -/
def addSchedule (now : Nat) (schedule : ScheduleConfig) (schedules : List ScheduleConfig) :
    ScheduleConfig × List ScheduleConfig :=
  let s1 := if schedule.id == "" then { schedule with id := toString now } else schedule
  let s2 := if s1.createdAt == 0 then { s1 with createdAt := now } else s1
  (s2, schedules ++ [s2])

/-- updateSchedule of the store: findIndex on the id; null with an untouched
list when the id is not found; otherwise the payload, with createdAt and
createdBy force-restored from the existing record, replaces the record at
the found (first-match) index. -/
def updateSchedule (upd : ScheduleConfig) :
    List ScheduleConfig → Option ScheduleConfig × List ScheduleConfig
  | [] => (none, [])
  | s :: rest =>
    if s.id == upd.id then
      let merged := { upd with createdAt := s.createdAt, createdBy := s.createdBy }
      (some merged, merged :: rest)
    else
      let tail := updateSchedule upd rest
      (tail.1, s :: tail.2)

/-- deleteSchedule: keeps every record with a different id; true exactly when
the length changed (the store persists only in that case). -/
def deleteSchedule (id : String) (schedules : List ScheduleConfig) :
    Bool × List ScheduleConfig :=
  let remaining := schedules.filter (fun s => !(s.id == id))
  (remaining.length != schedules.length, remaining)

/-- canUserManageSchedule: false when the schedule does not exist; true for
admins; otherwise the two optional-chained creator comparisons of the
source. -/
def canUserManageSchedule (scheduleId : String) (platform : Platform) (userId : String)
    (isAdmin : Bool) (schedules : List ScheduleConfig) : Bool :=
  match getSchedule scheduleId schedules with
  | none => false
  | some schedule =>
    if isAdmin then true
    else
      (match schedule.createdBy with
       | some c => c.platform == platform
       | none => false) &&
      (match schedule.createdBy with
       | some c => c.userId == userId
       | none => false)

/-- getEnabledSchedules: the enabled records. -/
def getEnabledSchedules (schedules : List ScheduleConfig) : List ScheduleConfig :=
  schedules.filter (fun s => s.enabled)

/-- Request record of createUserSchedule. -/
structure CreateUserScheduleParams where
  name : String
  fetchType : FetchType
  cronExpression : String
  platform : Platform
  channelId : Option String
  guildId : Option String
  chatId : Option String
  userId : String
  username : Option String
deriving DecidableEq, Repr

/-- createUserSchedule: builds a new enabled schedule with the generated
platform-timestamp-random id and the creator stamp, attaches the discord
block when the platform is discord and the channel id is truthy, else the
telegram block when the platform is telegram and the chat id is truthy,
else no destination block at all, and delegates to addSchedule. now models
Date.now, rand the random suffix. -/
def createUserSchedule (p : CreateUserScheduleParams) (now rand : Nat)
    (schedules : List ScheduleConfig) : ScheduleConfig × List ScheduleConfig :=
  let base : ScheduleConfig :=
    { id := p.platform.str ++ "-" ++ toString now ++ "-" ++ toString rand
      name := p.name
      cronExpression := p.cronExpression
      enabled := true
      fetchType := p.fetchType
      createdAt := now
      createdBy := some { platform := p.platform, userId := p.userId, username := p.username }
      discord := none
      telegram := none }
  let newSchedule :=
    if p.platform == Platform.discord && strTruthy p.channelId then
      { base with discord := some { channelId := p.channelId.getD "", guildId := p.guildId } }
    else if p.platform == Platform.telegram && strTruthy p.chatId then
      { base with telegram := some { chatId := p.chatId.getD "" } }
    else base
  addSchedule now newSchedule schedules

end ScheduleManager

namespace SchedulerService

/-- Engine state: the live task map (insertion-ordered entries from schedule
id to the schedule the cron timer closure was created from) and the two
sender registrations. -/
structure EngineState where
  scheduledTasks : List (String × ScheduleConfig)
  hasDiscordSender : Bool
  hasTelegramSender : Bool
deriving DecidableEq, Repr

/-- Engine state right after construction: empty map, no senders. -/
def engineInit : EngineState :=
  { scheduledTasks := [], hasDiscordSender := false, hasTelegramSender := false }

/-- setDiscordSender: registers the discord sender. -/
def setDiscordSender (st : EngineState) : EngineState :=
  { st with hasDiscordSender := true }

/-- setTelegramSender: registers the telegram sender. -/
def setTelegramSender (st : EngineState) : EngineState :=
  { st with hasTelegramSender := true }

/-- Map.has on the task map. -/
def hasTask (st : EngineState) (id : String) : Bool :=
  st.scheduledTasks.any (fun p => p.1 == id)

/-- No usable discord target: block absent or channel id falsy or empty. -/
def noDiscordTarget (schedule : ScheduleConfig) : Bool :=
  match schedule.discord with
  | none => true
  | some d => d.channelId == ""

/-- No usable telegram target: block absent or chat id falsy or empty. -/
def noTelegramTarget (schedule : ScheduleConfig) : Bool :=
  match schedule.telegram with
  | none => true
  | some t => t.chatId == ""

/-- addSchedule of the engine: a no-op when the id is already tracked, when
no sender at all is registered, when neither destination is usable, or when
cron.schedule throws on an invalid expression (caught and logged);
otherwise Map.set inserts the new task at the end of the map. The enabled
flag is not inspected. -/
def addSchedule (schedule : ScheduleConfig) (st : EngineState) : EngineState :=
  if hasTask st schedule.id then st
  else if !st.hasDiscordSender && !st.hasTelegramSender then st
  else if noDiscordTarget schedule && noTelegramTarget schedule then st
  else if nodeCronPatternValid schedule.cronExpression then
    { st with scheduledTasks := st.scheduledTasks ++ [(schedule.id, schedule)] }
  else st

/-- addScheduledTasks: filters the enabled schedules and hands each to
addSchedule. -/
def addScheduledTasks (schedules : List ScheduleConfig) (st : EngineState) : EngineState :=
  (schedules.filter (fun s => s.enabled)).foldl (fun acc s => addSchedule s acc) st

/-- removeSchedule: when a task for the id exists it is stopped and deleted
from the map and true is returned, else false and the state is untouched. -/
def removeSchedule (scheduleId : String) (st : EngineState) : Bool × EngineState :=
  if hasTask st scheduleId then
    (true, { st with scheduledTasks := st.scheduledTasks.filter (fun p => !(p.1 == scheduleId)) })
  else (false, st)

/-- updateSchedule of the engine: removal first (result discarded), then an
add only when the schedule is enabled. -/
def updateSchedule (schedule : ScheduleConfig) (st : EngineState) : EngineState :=
  let st1 := (removeSchedule schedule.id st).2
  if schedule.enabled then addSchedule schedule st1 else st1

/-- stopAllTasks: stops every task and clears the map. -/
def stopAllTasks (st : EngineState) : EngineState :=
  { st with scheduledTasks := [] }

end SchedulerService

namespace Telegram

/-- Replies emitted by the telegram schedule-create handler. -/
inductive CreateReply where
  | usage
  | invalidType
  | invalidFormat
  | noChatId
  | noUserId
  | success (schedule : ScheduleConfig)
deriving DecidableEq, Repr

/-- Anchored match of the source every-N regex: the whitespace token list
must be exactly the word every, a digit group, and the unit with an
optional plural s. -/
def matchEveryUnit (unit : String) (s : String) : Option Nat :=
  match wsTokens s with
  | [w, d, u] =>
    if w == "every" && isDigits d && (u == unit || u == unit ++ "s") then
      some (natOf d)
    else none
  | _ => none

/-- Frequency mapping of the create handler: friendly names and every-N
phrases map to cron expressions (the every-N form only inside the allowed
range, otherwise the text passes through unchanged, and a matched minutes
phrase never falls through to the hours regex). -/
def mapFrequency (cronExpression : String) : String :=
  let freqLower := jsToLower cronExpression
  if freqLower == "hourly" || freqLower == "every hour" then "0 * * * *"
  else if freqLower == "daily" || freqLower == "every day" then "0 12 * * *"
  else if freqLower == "weekly" || freqLower == "every week" then "0 12 * * 1"
  else
    match matchEveryUnit "minute" freqLower with
    | some minutes =>
      if 1 ≤ minutes ∧ minutes ≤ 59 then "*/" ++ toString minutes ++ " * * * *"
      else cronExpression
    | none =>
      match matchEveryUnit "hour" freqLower with
      | some hours =>
        if 1 ≤ hours ∧ hours ≤ 23 then "0 */" ++ toString hours ++ " * * *"
        else cronExpression
      | none => cronExpression

/-- handleCreateSchedule of the telegram command module, from the point
where the command token has been shifted off the parsed argument list.
chatId and userId are the optional ids of the telegram context, username
the resolved display name, now and rand the ambient Date.now and random
values. Returns the reply together with the store and engine state after
the call. The validation step mirrors the source exactly: the Bool that
nodeCronValidate returns is discarded, and isValidCron only becomes false
when the call throws, which it never does. -/
def handleCreateSchedule (args : List String) (chatId userId : Option String)
    (username : String) (now rand : Nat) (store : List ScheduleConfig)
    (eng : SchedulerService.EngineState) :
    CreateReply × List ScheduleConfig × SchedulerService.EngineState :=
  if args.length < 1 then (.usage, store, eng)
  else
    let ty := jsToLower (args.headD "")
    if !(ty == "artist") && !(ty == "nft") then (.invalidType, store, eng)
    else
      let cronExpression0 := if args.length > 1 then args.getD 1 "" else "daily"
      let name :=
        if args.length > 2 then args.getD 2 ""
        else if ty == "artist" then "Random Artist" else "Random NFT"
      let cronExpression := mapFrequency cronExpression0
      let isValidCron :=
        match nodeCronValidate cronExpression with
        | .ok _ => true
        | .error _ => false
      if !isValidCron then (.invalidFormat, store, eng)
      else
        match chatId with
        | none => (.noChatId, store, eng)
        | some chat =>
          match userId with
          | none => (.noUserId, store, eng)
          | some uid =>
            let fetchType := if ty == "artist" then FetchType.artist else FetchType.nft
            let created := ScheduleManager.createUserSchedule
              { name := name, fetchType := fetchType, cronExpression := cronExpression,
                platform := Platform.telegram, channelId := none, guildId := none,
                chatId := some chat, userId := uid, username := some username }
              now rand store
            let eng1 := SchedulerService.addSchedule created.1 eng
            (.success created.1, created.2, eng1)

end Telegram

/-- One mutating call on the schedule store, with arbitrary arguments and
ambient timestamp and random values. -/
inductive StoreStep : List ScheduleConfig → List ScheduleConfig → Prop
  | add (now : Nat) (schedule : ScheduleConfig) (store : List ScheduleConfig) :
      StoreStep store (ScheduleManager.addSchedule now schedule store).2
  | create (p : ScheduleManager.CreateUserScheduleParams) (now rand : Nat)
      (store : List ScheduleConfig) :
      StoreStep store (ScheduleManager.createUserSchedule p now rand store).2
  | update (upd : ScheduleConfig) (store : List ScheduleConfig) :
      StoreStep store (ScheduleManager.updateSchedule upd store).2
  | delete (id : String) (store : List ScheduleConfig) :
      StoreStep store (ScheduleManager.deleteSchedule id store).2

/-- Store states reachable from the empty store through mutating calls. -/
def StoreReachable (store : List ScheduleConfig) : Prop :=
  Relation.ReflTransGen StoreStep [] store

/-- One public engine call, with arbitrary arguments. -/
inductive EngineStep : SchedulerService.EngineState → SchedulerService.EngineState → Prop
  | setDiscord (st) : EngineStep st (SchedulerService.setDiscordSender st)
  | setTelegram (st) : EngineStep st (SchedulerService.setTelegramSender st)
  | addTasks (schedules st) : EngineStep st (SchedulerService.addScheduledTasks schedules st)
  | add (schedule st) : EngineStep st (SchedulerService.addSchedule schedule st)
  | update (schedule st) : EngineStep st (SchedulerService.updateSchedule schedule st)
  | remove (id st) : EngineStep st (SchedulerService.removeSchedule id st).2
  | stopAll (st) : EngineStep st (SchedulerService.stopAllTasks st)

/-- Engine states reachable from the freshly constructed engine. -/
def EngineReachable (st : SchedulerService.EngineState) : Prop :=
  Relation.ReflTransGen EngineStep SchedulerService.engineInit st

/-- One public engine call under the discipline that a direct add only ever
receives an enabled schedule, which is how every caller in the repository
invokes it. -/
inductive EngineStepD : SchedulerService.EngineState → SchedulerService.EngineState → Prop
  | setDiscord (st) : EngineStepD st (SchedulerService.setDiscordSender st)
  | setTelegram (st) : EngineStepD st (SchedulerService.setTelegramSender st)
  | addTasks (schedules st) : EngineStepD st (SchedulerService.addScheduledTasks schedules st)
  | add (schedule st) : schedule.enabled = true →
      EngineStepD st (SchedulerService.addSchedule schedule st)
  | update (schedule st) : EngineStepD st (SchedulerService.updateSchedule schedule st)
  | remove (id st) : EngineStepD st (SchedulerService.removeSchedule id st).2
  | stopAll (st) : EngineStepD st (SchedulerService.stopAllTasks st)

/-- Engine states reachable under the enabled-add discipline. -/
def EngineReachableD (st : SchedulerService.EngineState) : Prop :=
  Relation.ReflTransGen EngineStepD SchedulerService.engineInit st

/-- Number of live tasks the engine map holds for one schedule id. -/
def countTasks (st : SchedulerService.EngineState) (id : String) : Nat :=
  (st.scheduledTasks.filter (fun p => p.1 == id)).length

/-- Iterated direct engine add of one schedule. -/
def iterAdd (schedule : ScheduleConfig) : Nat → SchedulerService.EngineState →
    SchedulerService.EngineState
  | 0, st => st
  | n + 1, st => iterAdd schedule n (SchedulerService.addSchedule schedule st)

/-- Every task in the engine map was created from an enabled schedule. -/
def allTasksEnabled (st : SchedulerService.EngineState) : Prop :=
  ∀ p ∈ st.scheduledTasks, p.2.enabled = true

/-- Concrete creator stamp used in witnesses. -/
def exCreated : CreatedBy :=
  { platform := Platform.telegram, userId := "u1", username := some "u" }

/-- Concrete stored schedule used in witnesses. -/
def origEx : ScheduleConfig :=
  { id := "x", name := "Orig", cronExpression := "0 12 * * *", enabled := true,
    fetchType := FetchType.artist, createdAt := 11, createdBy := some exCreated,
    discord := none, telegram := some { chatId := "1" } }

/-- Concrete update payload carrying different creation data on purpose. -/
def updEx : ScheduleConfig :=
  { id := "x", name := "New", cronExpression := "0 * * * *", enabled := false,
    fetchType := FetchType.nft, createdAt := 99, createdBy := none,
    discord := none, telegram := some { chatId := "2" } }

/-- Concrete schedule with no creator stamp. -/
def orphanEx : ScheduleConfig :=
  { id := "y", name := "Orphan", cronExpression := "0 12 * * *", enabled := true,
    fetchType := FetchType.nft, createdAt := 3, createdBy := none,
    discord := none, telegram := some { chatId := "7" } }

/-- Concrete disabled schedule with a usable telegram target. -/
def badSchedule : ScheduleConfig :=
  { id := "s1", name := "Bad", cronExpression := "0 12 * * *", enabled := false,
    fetchType := FetchType.artist, createdAt := 1, createdBy := none,
    discord := none, telegram := some { chatId := "123" } }

/-- Engine state obtained by registering the telegram sender and then handing
the disabled schedule directly to the engine add. -/
def badEngineState : SchedulerService.EngineState :=
  SchedulerService.addSchedule badSchedule
    (SchedulerService.setTelegramSender SchedulerService.engineInit)

/-- Concrete enabled schedule used for engine witnesses. -/
def goodSchedule : ScheduleConfig :=
  { id := "g1", name := "Good", cronExpression := "0 12 * * *", enabled := true,
    fetchType := FetchType.artist, createdAt := 1, createdBy := some exCreated,
    discord := none, telegram := some { chatId := "9" } }

/-- Concrete schedule whose id collides with itself on a second add. -/
def dupSchedule : ScheduleConfig :=
  { id := "x", name := "A", cronExpression := "0 12 * * *", enabled := true,
    fetchType := FetchType.artist, createdAt := 1, createdBy := none,
    discord := none, telegram := some { chatId := "1" } }

/-- Store reached by handing the same already-stamped record to the store add
twice. -/
def dupStore : List ScheduleConfig :=
  (ScheduleManager.addSchedule 2 dupSchedule
    (ScheduleManager.addSchedule 1 dupSchedule []).2).2

/-- Creation request with a discord platform and no channel id at all. -/
def noDestParams : ScheduleManager.CreateUserScheduleParams :=
  { name := "X", fetchType := FetchType.artist, cronExpression := "0 12 * * *",
    platform := Platform.discord, channelId := none, guildId := none, chatId := none,
    userId := "u1", username := none }

/-- Engine with the telegram sender registered, as main does at startup. -/
def senderReadyEngine : SchedulerService.EngineState :=
  SchedulerService.setTelegramSender SchedulerService.engineInit

end Rejkt

namespace Rejkt

/-- Store update leaves a list whose head predicate misses the id untouched. -/
theorem updateSchedule_not_found (upd : ScheduleConfig) :
    ∀ store : List ScheduleConfig, (∀ s ∈ store, s.id ≠ upd.id) →
      ScheduleManager.updateSchedule upd store = (none, store) := by
  intro store
  induction store with
  | nil => intro h; rfl
  | cons s rest ih =>
    intro h
    have hs : s.id ≠ upd.id := h s (List.mem_cons_self s rest)
    have hrest := ih (fun t ht => h t (List.mem_cons_of_mem s ht))
    simp [ScheduleManager.updateSchedule, hs, hrest]

/-- Store update replaces the first record carrying the id and restores its
creation data into the payload. -/
theorem updateSchedule_found (upd orig : ScheduleConfig) (post : List ScheduleConfig) :
    ∀ pre : List ScheduleConfig, (∀ s ∈ pre, s.id ≠ upd.id) → orig.id = upd.id →
      ScheduleManager.updateSchedule upd (pre ++ orig :: post) =
        (some { upd with createdAt := orig.createdAt, createdBy := orig.createdBy },
         pre ++ { upd with createdAt := orig.createdAt, createdBy := orig.createdBy } :: post) := by
  intro pre
  induction pre with
  | nil =>
    intro _ heq
    simp [ScheduleManager.updateSchedule, heq]
  | cons s rest ih =>
    intro h heq
    have hs : s.id ≠ upd.id := h s (List.mem_cons_self s rest)
    have hrest := ih (fun t ht => h t (List.mem_cons_of_mem s ht)) heq
    simp [ScheduleManager.updateSchedule, hs, hrest]

/-- Claim C3: for every stored schedule list and update payload, the store
updateSchedule returns absent and leaves the store unchanged when no record
carries the id, and otherwise the record after the update keeps the
createdAt and createdBy of the pre-existing record whatever the payload
carried there, while every other field comes from the payload, the
surrounding records being untouched. -/
theorem updateSchedule_frame (upd : ScheduleConfig) (store : List ScheduleConfig) :
    ((∀ s ∈ store, s.id ≠ upd.id) →
       ScheduleManager.updateSchedule upd store = (none, store)) ∧
    (∀ pre orig post,
       store = pre ++ orig :: post → (∀ s ∈ pre, s.id ≠ upd.id) → orig.id = upd.id →
       ScheduleManager.updateSchedule upd store =
         (some { upd with createdAt := orig.createdAt, createdBy := orig.createdBy },
          pre ++ { upd with createdAt := orig.createdAt, createdBy := orig.createdBy } :: post)) := by
  constructor
  · exact updateSchedule_not_found upd store
  · intro pre orig post hst hpre heq
    subst hst
    exact updateSchedule_found upd orig post pre hpre heq

/-- Witness for claim C3 at a concrete store and payload, covering both the
found and the not-found hypotheses. -/
theorem updateSchedule_frame_witness :
    (origEx.id = updEx.id ∧
      ScheduleManager.updateSchedule updEx [origEx] =
        (some { updEx with createdAt := origEx.createdAt, createdBy := origEx.createdBy },
         [{ updEx with createdAt := origEx.createdAt, createdBy := origEx.createdBy }])) ∧
    ((∀ s ∈ ([] : List ScheduleConfig), s.id ≠ updEx.id) ∧
      ScheduleManager.updateSchedule updEx [] = (none, [])) :=
  ⟨⟨rfl, (updateSchedule_frame updEx [origEx]).2 [] origEx [] rfl (by simp) rfl⟩,
   ⟨by simp, (updateSchedule_frame updEx []).1 (by simp)⟩⟩

/-- Claim C4: canUserManageSchedule answers true exactly when the schedule
exists and either the caller is an admin or the creator stamp matches the
supplied platform and user id; in particular it answers false on a missing
id even for admins. -/
theorem canUserManageSchedule_spec (scheduleId : String) (platform : Platform)
    (userId : String) (isAdmin : Bool) (schedules : List ScheduleConfig) :
    ScheduleManager.canUserManageSchedule scheduleId platform userId isAdmin schedules = true ↔
      ∃ s, ScheduleManager.getSchedule scheduleId schedules = some s ∧
        (isAdmin = true ∨
          ∃ c, s.createdBy = some c ∧ c.platform = platform ∧ c.userId = userId) := by
  unfold ScheduleManager.canUserManageSchedule
  cases hfind : ScheduleManager.getSchedule scheduleId schedules with
  | none => simp
  | some s =>
    cases isAdmin with
    | true => simp
    | false =>
      cases hcb : s.createdBy with
      | none => simp [hcb]
      | some c => simp [hcb, and_assoc]

/-- Claim C9: a schedule with no discord block is matched by the discord
channel filter exactly when the queried channel id is the empty string, for
every store and every queried guild id. -/
theorem getDiscordChannelSchedules_no_block (channelId : String) (guildId : Option String)
    (schedules : List ScheduleConfig) (sch : ScheduleConfig) (h : sch.discord = none) :
    sch ∈ ScheduleManager.getDiscordChannelSchedules channelId guildId schedules ↔
      sch ∈ schedules ∧ channelId = "" := by
  unfold ScheduleManager.getDiscordChannelSchedules
  rw [List.mem_filter]
  simp [h, beq_iff_eq]
  intro _
  exact eq_comm

/-- Witness for claim C9: the telegram-only record is returned by an
empty-channel query. -/
theorem getDiscordChannelSchedules_no_block_witness :
    orphanEx.discord = none ∧
      (orphanEx ∈ ScheduleManager.getDiscordChannelSchedules "" none [orphanEx] ↔
        orphanEx ∈ [orphanEx] ∧ ("" : String) = "") :=
  ⟨rfl, getDiscordChannelSchedules_no_block "" none [orphanEx] orphanEx rfl⟩

/-- Claim C10: a stored schedule whose createdBy is absent can be managed by
no non-admin caller, whatever platform and user id they present. -/
theorem canUserManageSchedule_no_creator (scheduleId : String) (platform : Platform)
    (userId : String) (schedules : List ScheduleConfig) (s : ScheduleConfig)
    (hfind : ScheduleManager.getSchedule scheduleId schedules = some s)
    (hcb : s.createdBy = none) :
    ScheduleManager.canUserManageSchedule scheduleId platform userId false schedules = false := by
  unfold ScheduleManager.canUserManageSchedule
  rw [hfind]
  simp [hcb]

/-- Witness for claim C10 at a concrete creator-less record. -/
theorem canUserManageSchedule_no_creator_witness :
    ScheduleManager.getSchedule "y" [orphanEx] = some orphanEx ∧
    orphanEx.createdBy = none ∧
    ScheduleManager.canUserManageSchedule "y" Platform.discord "u2" false [orphanEx] = false :=
  ⟨by decide, rfl,
   canUserManageSchedule_no_creator "y" Platform.discord "u2" [orphanEx] orphanEx
     (by decide) rfl⟩

/-- Engine add is untouched-state no-op once the id is tracked. -/
theorem addSchedule_of_hasTask (schedule : ScheduleConfig) (st : SchedulerService.EngineState)
    (h : SchedulerService.hasTask st schedule.id = true) :
    SchedulerService.addSchedule schedule st = st := by
  unfold SchedulerService.addSchedule
  simp [h]

/-- Engine add either refuses (state unchanged) or, when the id was untracked,
appends exactly one entry for it. -/
theorem addSchedule_cases (schedule : ScheduleConfig) (st : SchedulerService.EngineState) :
    SchedulerService.addSchedule schedule st = st ∨
      (SchedulerService.hasTask st schedule.id = false ∧
        SchedulerService.addSchedule schedule st =
          { st with scheduledTasks := st.scheduledTasks ++ [(schedule.id, schedule)] }) := by
  unfold SchedulerService.addSchedule
  split_ifs with h1 h2 h3 h4
  · exact Or.inl rfl
  · exact Or.inl rfl
  · exact Or.inl rfl
  · exact Or.inr ⟨by simpa using h1, rfl⟩
  · exact Or.inl rfl

/-- The freshly inserted entry makes its id tracked. -/
theorem hasTask_insert (schedule : ScheduleConfig) (st : SchedulerService.EngineState) :
    SchedulerService.hasTask
      { st with scheduledTasks := st.scheduledTasks ++ [(schedule.id, schedule)] }
      schedule.id = true := by
  simp [SchedulerService.hasTask]

/-- Engine add is idempotent on states. -/
theorem addSchedule_idem (schedule : ScheduleConfig) (st : SchedulerService.EngineState) :
    SchedulerService.addSchedule schedule (SchedulerService.addSchedule schedule st) =
      SchedulerService.addSchedule schedule st := by
  rcases addSchedule_cases schedule st with h | ⟨h0, h⟩
  · rw [h]
    exact h
  · rw [h]
    exact addSchedule_of_hasTask schedule _ (hasTask_insert schedule st)

/-- Any positive number of engine adds of one schedule equals a single add. -/
theorem iterAdd_succ (schedule : ScheduleConfig) (n : Nat) :
    ∀ st, iterAdd schedule (n + 1) st = SchedulerService.addSchedule schedule st := by
  induction n with
  | zero => intro st; rfl
  | succ n ih =>
    intro st
    show iterAdd schedule (n + 1) (SchedulerService.addSchedule schedule st) = _
    rw [ih, addSchedule_idem]

/-- An untracked id owns no task map entry. -/
theorem countTasks_eq_zero_of_not_hasTask (st : SchedulerService.EngineState) (id : String)
    (h : SchedulerService.hasTask st id = false) : countTasks st id = 0 := by
  unfold SchedulerService.hasTask at h
  rw [List.any_eq_false] at h
  unfold countTasks
  rw [List.length_eq_zero, List.filter_eq_nil_iff]
  exact h

/-- A tracked id owns at least one task map entry. -/
theorem one_le_countTasks_of_hasTask (st : SchedulerService.EngineState) (id : String)
    (h : SchedulerService.hasTask st id = true) : 1 ≤ countTasks st id := by
  unfold SchedulerService.hasTask at h
  rw [List.any_eq_true] at h
  obtain ⟨p, hp, hpe⟩ := h
  have hmem : p ∈ st.scheduledTasks.filter (fun q => q.1 == id) :=
    List.mem_filter.mpr ⟨hp, hpe⟩
  exact List.length_pos.mpr (List.ne_nil_of_mem hmem)

/-- Claim C5: the engine add is a no-op leaving the existing timer untouched
when a timer for the id already exists, repeating the add any number of
times equals a single add, and whenever the single add left the id tracked
the task map holds exactly one timer for it after any number of adds, from
any state carrying at most one timer for the id. -/
theorem engine_addSchedule_idempotent (schedule : ScheduleConfig)
    (st : SchedulerService.EngineState) (h : countTasks st schedule.id ≤ 1) :
    (SchedulerService.hasTask st schedule.id = true →
       SchedulerService.addSchedule schedule st = st) ∧
    (∀ n : Nat, iterAdd schedule (n + 1) st = SchedulerService.addSchedule schedule st) ∧
    (SchedulerService.hasTask (SchedulerService.addSchedule schedule st) schedule.id = true →
       ∀ n : Nat, countTasks (iterAdd schedule (n + 1) st) schedule.id = 1) := by
  refine ⟨addSchedule_of_hasTask schedule st, fun n => iterAdd_succ schedule n st, ?_⟩
  intro hafter n
  rw [iterAdd_succ]
  rcases addSchedule_cases schedule st with hcase | ⟨h0, hcase⟩
  · rw [hcase] at hafter ⊢
    have h1 := one_le_countTasks_of_hasTask st schedule.id hafter
    omega
  · rw [hcase]
    have h0z := countTasks_eq_zero_of_not_hasTask st schedule.id h0
    unfold countTasks at h0z ⊢
    simp [List.filter_append, h0z]

/-- Witness for claim C5 on a sender-ready engine: the second add of the
concrete enabled schedule is a no-op and every iterate keeps exactly one
timer for its id. -/
theorem engine_addSchedule_idempotent_witness :
    (countTasks (SchedulerService.addSchedule goodSchedule senderReadyEngine)
        goodSchedule.id ≤ 1 ∧
      SchedulerService.hasTask (SchedulerService.addSchedule goodSchedule senderReadyEngine)
        goodSchedule.id = true ∧
      SchedulerService.addSchedule goodSchedule
          (SchedulerService.addSchedule goodSchedule senderReadyEngine) =
        SchedulerService.addSchedule goodSchedule senderReadyEngine) ∧
    (countTasks senderReadyEngine goodSchedule.id ≤ 1 ∧
      SchedulerService.hasTask (SchedulerService.addSchedule goodSchedule senderReadyEngine)
        goodSchedule.id = true ∧
      ∀ n : Nat, countTasks (iterAdd goodSchedule (n + 1) senderReadyEngine)
        goodSchedule.id = 1) :=
  ⟨⟨by decide, by decide,
    (engine_addSchedule_idempotent goodSchedule
      (SchedulerService.addSchedule goodSchedule senderReadyEngine) (by decide)).1
      (by decide)⟩,
   ⟨by decide, by decide,
    (engine_addSchedule_idempotent goodSchedule senderReadyEngine (by decide)).2.2
      (by decide)⟩⟩

/-- Claim C6: the engine updateSchedule reaches exactly the state of a
removeSchedule followed by an addSchedule when the schedule is enabled, and
exactly the state of the removeSchedule alone when it is disabled. -/
theorem engine_updateSchedule_refines (schedule : ScheduleConfig)
    (st : SchedulerService.EngineState) :
    (schedule.enabled = true →
       SchedulerService.updateSchedule schedule st =
         SchedulerService.addSchedule schedule
           (SchedulerService.removeSchedule schedule.id st).2) ∧
    (schedule.enabled = false →
       SchedulerService.updateSchedule schedule st =
         (SchedulerService.removeSchedule schedule.id st).2) := by
  constructor <;> intro h <;> simp [SchedulerService.updateSchedule, h]

/-- Witness for claim C6 on concrete enabled and disabled schedules. -/
theorem engine_updateSchedule_refines_witness :
    (goodSchedule.enabled = true ∧
      SchedulerService.updateSchedule goodSchedule SchedulerService.engineInit =
        SchedulerService.addSchedule goodSchedule
          (SchedulerService.removeSchedule goodSchedule.id SchedulerService.engineInit).2) ∧
    (badSchedule.enabled = false ∧
      SchedulerService.updateSchedule badSchedule SchedulerService.engineInit =
        (SchedulerService.removeSchedule badSchedule.id SchedulerService.engineInit).2) :=
  ⟨⟨rfl, (engine_updateSchedule_refines goodSchedule SchedulerService.engineInit).1 rfl⟩,
   ⟨rfl, (engine_updateSchedule_refines badSchedule SchedulerService.engineInit).2 rfl⟩⟩

/-- Claim C1: the cron validation of the telegram create handler is dead
code, because the handler discards the Bool that the node-cron validate
call returns and that call never throws; the handler therefore never
answers the invalid-format reply, and on the syntactically invalid cron
text it persists a new schedule instead of leaving the store unchanged. -/
theorem create_handler_persists_invalid_cron :
    (∀ (args : List String) (chatId userId : Option String) (username : String)
       (now rand : Nat) (store : List ScheduleConfig) (eng : SchedulerService.EngineState),
       ((Telegram.handleCreateSchedule args chatId userId username now rand store eng).1 ==
         Telegram.CreateReply.invalidFormat) = false) ∧
    nodeCronPatternValid "@@@" = false ∧
    (Telegram.handleCreateSchedule ["artist", "@@@", "Bad"] (some "1") (some "u1") "user"
        100 5 [] SchedulerService.engineInit).2.1 =
      [{ id := "telegram-100-5", name := "Bad", cronExpression := "@@@", enabled := true,
         fetchType := FetchType.artist, createdAt := 100,
         createdBy := some { platform := Platform.telegram, userId := "u1",
                             username := some "user" },
         discord := none, telegram := some { chatId := "1" } }] := by
  refine ⟨?_, by decide, by decide⟩
  intro args chatId userId username now rand store eng
  unfold Telegram.handleCreateSchedule
  simp only [nodeCronValidate]
  split
  · simp
  · split
    · simp
    · split
      · simp_all
      · split
        · simp
        · split
          · simp
          · simp

/-- Claim C2 counterexample: createUserSchedule accepts and persists a
definition with neither destination block, instead of rejecting it before
persistence. -/
theorem createUserSchedule_accepts_destinationless :
    (ScheduleManager.createUserSchedule noDestParams 100 5 []).1.discord = none ∧
    (ScheduleManager.createUserSchedule noDestParams 100 5 []).1.telegram = none ∧
    (ScheduleManager.createUserSchedule noDestParams 100 5 []).2 =
      [(ScheduleManager.createUserSchedule noDestParams 100 5 []).1] := by
  decide

/-- Claim C2 amended: the engine addSchedule refuses (state unchanged) any
schedule with no usable destination, while createUserSchedule does not
reject a destination-less request: it appends a record with neither block
to the store. -/
theorem engine_refuses_destinationless_creation_persists :
    (∀ (schedule : ScheduleConfig) (st : SchedulerService.EngineState),
       SchedulerService.noDiscordTarget schedule = true →
       SchedulerService.noTelegramTarget schedule = true →
       SchedulerService.addSchedule schedule st = st) ∧
    (∀ (p : ScheduleManager.CreateUserScheduleParams) (now rand : Nat)
       (store : List ScheduleConfig),
       strTruthy p.channelId = false → strTruthy p.chatId = false →
       (ScheduleManager.createUserSchedule p now rand store).1.discord = none ∧
       (ScheduleManager.createUserSchedule p now rand store).1.telegram = none ∧
       (ScheduleManager.createUserSchedule p now rand store).2 =
         store ++ [(ScheduleManager.createUserSchedule p now rand store).1]) := by
  constructor
  · intro schedule st h1 h2
    unfold SchedulerService.addSchedule
    split_ifs with ha hb hc hd
    · rfl
    · rfl
    · rfl
    · exact absurd (by simp [h1, h2]) hc
    · rfl
  · intro p now rand store h1 h2
    unfold ScheduleManager.createUserSchedule ScheduleManager.addSchedule
    refine ⟨?_, ?_, rfl⟩ <;> simp [h1, h2] <;> split_ifs <;> rfl

/-- Witness for the amended claim C2 at a concrete destination-less schedule
and request. -/
theorem engine_refuses_destinationless_creation_persists_witness :
    (SchedulerService.noDiscordTarget
        { origEx with telegram := none, discord := none } = true ∧
      SchedulerService.noTelegramTarget
        { origEx with telegram := none, discord := none } = true ∧
      SchedulerService.addSchedule { origEx with telegram := none, discord := none }
          SchedulerService.engineInit = SchedulerService.engineInit) ∧
    (strTruthy noDestParams.channelId = false ∧ strTruthy noDestParams.chatId = false ∧
      (ScheduleManager.createUserSchedule noDestParams 7 8 []).1.discord = none) :=
  ⟨⟨rfl, rfl,
    engine_refuses_destinationless_creation_persists.1
      { origEx with telegram := none, discord := none } SchedulerService.engineInit rfl rfl⟩,
   ⟨rfl, rfl,
    (engine_refuses_destinationless_creation_persists.2 noDestParams 7 8 [] rfl rfl).1⟩⟩

/-- Claim C7 counterexample: an engine state reachable through the public
engine calls holds a live timer for a disabled schedule, because the direct
addSchedule performs no enabled check. -/
theorem engine_reachable_disabled_timer :
    EngineReachable badEngineState ∧
      ("s1", badSchedule) ∈ badEngineState.scheduledTasks ∧ badSchedule.enabled = false := by
  refine ⟨?_, by decide, rfl⟩
  exact Relation.ReflTransGen.tail
    (Relation.ReflTransGen.tail Relation.ReflTransGen.refl (EngineStep.setTelegram _))
    (EngineStep.add badSchedule _)

/-- Adding an enabled schedule preserves the all-enabled task invariant. -/
theorem allTasksEnabled_add (schedule : ScheduleConfig) (st : SchedulerService.EngineState)
    (hen : schedule.enabled = true) (h : allTasksEnabled st) :
    allTasksEnabled (SchedulerService.addSchedule schedule st) := by
  rcases addSchedule_cases schedule st with hc | ⟨_, hc⟩
  · rw [hc]
    exact h
  · rw [hc]
    intro p hp
    rcases List.mem_append.mp hp with hp2 | hp2
    · exact h p hp2
    · have := List.mem_singleton.mp hp2
      subst this
      exact hen

/-- Folding enabled-only adds preserves the all-enabled task invariant. -/
theorem allTasksEnabled_fold (l : List ScheduleConfig) :
    ∀ st, allTasksEnabled st → (∀ s ∈ l, s.enabled = true) →
      allTasksEnabled (l.foldl (fun acc s => SchedulerService.addSchedule s acc) st) := by
  induction l with
  | nil => intro st h _; exact h
  | cons s rest ih =>
    intro st h hl
    exact ih _ (allTasksEnabled_add s st (hl s (List.mem_cons_self s rest)) h)
      (fun t ht => hl t (List.mem_cons_of_mem s ht))

/-- The bulk add filters on enabled, so it preserves the invariant. -/
theorem allTasksEnabled_addTasks (schedules : List ScheduleConfig)
    (st : SchedulerService.EngineState) (h : allTasksEnabled st) :
    allTasksEnabled (SchedulerService.addScheduledTasks schedules st) := by
  unfold SchedulerService.addScheduledTasks
  exact allTasksEnabled_fold _ st h (fun s hs => by
    have := (List.mem_filter.mp hs).2
    simpa using this)

/-- Removal only drops entries, so it preserves the invariant. -/
theorem allTasksEnabled_remove (id : String) (st : SchedulerService.EngineState)
    (h : allTasksEnabled st) :
    allTasksEnabled (SchedulerService.removeSchedule id st).2 := by
  unfold SchedulerService.removeSchedule
  split_ifs with hc
  · intro p hp
    exact h p (List.mem_of_mem_filter hp)
  · exact h

/-- The engine update removes, then adds only an enabled schedule, so it
preserves the invariant. -/
theorem allTasksEnabled_update (schedule : ScheduleConfig) (st : SchedulerService.EngineState)
    (h : allTasksEnabled st) :
    allTasksEnabled (SchedulerService.updateSchedule schedule st) := by
  unfold SchedulerService.updateSchedule
  cases hen : schedule.enabled with
  | true =>
    simp only [if_true]
    exact allTasksEnabled_add schedule _ hen (allTasksEnabled_remove _ st h)
  | false =>
    simp only [Bool.false_eq_true, if_false]
    exact allTasksEnabled_remove schedule.id st h

/-- Claim C7 amended: under the discipline that the direct engine add is only
invoked with enabled schedules, which is how every caller in the repository
invokes it, every reachable engine state holds timers only for enabled
schedules; the direct add itself checks nothing, so the undisciplined
relation violates the invariant. -/
theorem engine_disabled_never_timed (st : SchedulerService.EngineState)
    (h : EngineReachableD st) : ∀ p ∈ st.scheduledTasks, p.2.enabled = true := by
  induction h with
  | refl => intro p hp; simp [SchedulerService.engineInit] at hp
  | tail hsteps hstep ih =>
    cases hstep with
    | setDiscord s0 => exact ih
    | setTelegram s0 => exact ih
    | addTasks schedules s0 => exact allTasksEnabled_addTasks schedules _ ih
    | add schedule s0 hen => exact allTasksEnabled_add schedule _ hen ih
    | update schedule s0 => exact allTasksEnabled_update schedule _ ih
    | remove id s0 => exact allTasksEnabled_remove id _ ih
    | stopAll s0 => intro p hp; simp [SchedulerService.stopAllTasks] at hp

/-- Witness for the amended claim C7 at a concrete disciplined derivation. -/
theorem engine_disabled_never_timed_witness :
    EngineReachableD (SchedulerService.addSchedule goodSchedule
        (SchedulerService.setTelegramSender SchedulerService.engineInit)) ∧
    ∀ p ∈ (SchedulerService.addSchedule goodSchedule
        (SchedulerService.setTelegramSender SchedulerService.engineInit)).scheduledTasks,
      p.2.enabled = true := by
  have hreach : EngineReachableD (SchedulerService.addSchedule goodSchedule
      (SchedulerService.setTelegramSender SchedulerService.engineInit)) :=
    Relation.ReflTransGen.tail
      (Relation.ReflTransGen.tail Relation.ReflTransGen.refl (EngineStepD.setTelegram _))
      (EngineStepD.add goodSchedule _ rfl)
  exact ⟨hreach, engine_disabled_never_timed _ hreach⟩

/-- Claim C8 counterexample: two store adds of one already-stamped record
reach a store in which two records share one id, since the store add never
checks the id against existing records. -/
theorem store_reachable_duplicate_ids :
    StoreReachable dupStore ∧ ¬ (dupStore.map (fun s => s.id)).Nodup := by
  constructor
  · exact Relation.ReflTransGen.tail
      (Relation.ReflTransGen.tail Relation.ReflTransGen.refl
        (StoreStep.add 1 dupSchedule []))
      (StoreStep.add 2 dupSchedule (ScheduleManager.addSchedule 1 dupSchedule []).2)
  · decide

/-- The store update keeps the id sequence pointwise. -/
theorem updateSchedule_map_id (upd : ScheduleConfig) :
    ∀ store : List ScheduleConfig,
      (ScheduleManager.updateSchedule upd store).2.map (fun s => s.id) =
        store.map (fun s => s.id) := by
  intro store
  induction store with
  | nil => rfl
  | cons s rest ih =>
    by_cases hid : (s.id == upd.id) = true
    · simp [ScheduleManager.updateSchedule, hid]
      exact (beq_iff_eq.mp hid).symm
    · simp [ScheduleManager.updateSchedule, hid, ih]

/-- The store delete only drops records, so id uniqueness survives. -/
theorem deleteSchedule_map_id_nodup (id : String) (store : List ScheduleConfig)
    (h : (store.map (fun s => s.id)).Nodup) :
    ((ScheduleManager.deleteSchedule id store).2.map (fun s => s.id)).Nodup := by
  unfold ScheduleManager.deleteSchedule
  exact h.sublist (List.Sublist.map _ (List.filter_sublist store))

/-- Claim C8 amended: id uniqueness is preserved by the store update and the
store delete unconditionally, and by the store add exactly under the
freshness of the id the added record ends up carrying; the add itself
checks nothing, so a caller-supplied or colliding generated id breaks
uniqueness and a deleted id can be brought back. -/
theorem store_unique_ids_preserved (store : List ScheduleConfig)
    (h : (store.map (fun s => s.id)).Nodup) :
    (∀ upd, ((ScheduleManager.updateSchedule upd store).2.map (fun s => s.id)).Nodup) ∧
    (∀ id, ((ScheduleManager.deleteSchedule id store).2.map (fun s => s.id)).Nodup) ∧
    (∀ (now : Nat) (schedule : ScheduleConfig),
       (ScheduleManager.addSchedule now schedule store).1.id ∉ store.map (fun s => s.id) →
       ((ScheduleManager.addSchedule now schedule store).2.map (fun s => s.id)).Nodup) := by
  refine ⟨fun upd => ?_, fun id => deleteSchedule_map_id_nodup id store h, ?_⟩
  · rw [updateSchedule_map_id]
    exact h
  · intro now schedule hfresh
    unfold ScheduleManager.addSchedule at hfresh ⊢
    rw [List.map_append]
    rw [List.nodup_append]
    refine ⟨h, List.nodup_singleton _, ?_⟩
    intro a ha hb
    rcases List.mem_singleton.mp hb with rfl
    exact hfresh ha

/-- Witness for the amended claim C8 at a concrete fresh-id add. -/
theorem store_unique_ids_preserved_witness :
    ([dupSchedule].map (fun s => s.id)).Nodup ∧
    (ScheduleManager.addSchedule 5 orphanEx [dupSchedule]).1.id ∉
      [dupSchedule].map (fun s => s.id) ∧
    ((ScheduleManager.addSchedule 5 orphanEx [dupSchedule]).2.map (fun s => s.id)).Nodup :=
  ⟨by decide, by decide,
   (store_unique_ids_preserved [dupSchedule] (by decide)).2.2 5 orphanEx (by decide)⟩

end Rejkt
